import Mathlib

/-!
Verification development for the agentapi repository (opencode REST backend,
HTTP API server and event distribution).  The Go source is shallowly embedded:
pure logic becomes Lean functions, the stateful conversation objects become
explicit state passing, and the asynchronous send is split into its
synchronous part and an explicit completion step.  Wall-clock times are
modelled as natural numbers; they are carried around but never inspected.
-/

/-- Message roles, mirroring `screentracker.ConversationRole`
("user" / "agent"). -/
inductive ConversationRole where
  | user
  | agent
  deriving DecidableEq, Repr

/-- Conversation status, mirroring `screentracker.ConversationStatus`
("stable" / "changing"). -/
inductive ConversationStatus where
  | stable
  | changing
  deriving DecidableEq, Repr

/-- One conversation turn, mirroring `screentracker.ConversationMessage`
(fields `Id`, `Role`, `Message`, `Time`).  `Time` is an abstract clock
reading. -/
structure ConversationMessage where
  Id : Nat
  Role : ConversationRole
  Message : String
  Time : Nat
  deriving DecidableEq, Repr

/-- Embedding of Go's `strings.Join(elems, sep)`: the elements interleaved
with the separator (empty string for an empty list). -/
def goJoin (sep : String) : List String → String
  | [] => ""
  | [x] => x
  | x :: y :: xs => x ++ sep ++ goJoin sep (y :: xs)

/-- State of `opencode.Conversation` (lib/opencode): the message list and the
status.  The session id, client handle and logger do not influence the
verified logic and are omitted. -/
structure Conversation where
  messages : List ConversationMessage
  status : ConversationStatus
  deriving DecidableEq, Repr

/-- The two synchronous rejection errors of `Conversation.SendMessage`:
"agent is currently running" and "message content cannot be empty". -/
inductive SendError where
  | agentBusy
  | emptyInput
  deriving DecidableEq, Repr

/-- Synchronous part of `opencode.Conversation.SendMessage`: reject when the
status is `changing`; join the variadic input with single spaces; reject when
the joined content is empty; otherwise set status to `changing`, append a user
message with `Id = len(messages)`, and dispatch the content to the
asynchronous sender.  The result is the new state, the error (if any), and
the content handed to `go c.sendMessageAsync(content)` (if any). -/
def Conversation.sendMessage (c : Conversation) (userInput : List String) (now : Nat) :
    Conversation × Option SendError × Option String :=
  if c.status = ConversationStatus.changing then
    (c, some SendError.agentBusy, none)
  else
    let content := goJoin " " userInput
    if content = "" then
      (c, some SendError.emptyInput, none)
    else
      ({ messages := c.messages ++
           [{ Id := c.messages.length, Role := ConversationRole.user,
              Message := content, Time := now }],
         status := ConversationStatus.changing },
       none, some content)

/-- Outcome of the REST call made by `Conversation.sendMessageAsync`: either
the assistant reply's part texts, or a transport error description. -/
inductive ChatOutcome where
  | success (parts : List String)
  | failure (err : String)
  deriving DecidableEq, Repr

/-- Embedding of `Conversation.formatMessageParts`: part texts joined by
newlines. -/
def formatMessageParts (parts : List String) : String := goJoin "\n" parts

/-- Completion step of `opencode.Conversation.sendMessageAsync`: on failure
the error is only logged and the status is set back to `stable` (no message
is appended); on success an agent message with the formatted reply is
appended and the status is set back to `stable`. -/
def Conversation.sendMessageAsync (c : Conversation) (outcome : ChatOutcome) (now : Nat) :
    Conversation :=
  match outcome with
  | ChatOutcome.failure _ => { c with status := ConversationStatus.stable }
  | ChatOutcome.success parts =>
      { messages := c.messages ++
          [{ Id := c.messages.length, Role := ConversationRole.agent,
             Message := formatMessageParts parts, Time := now }],
        status := ConversationStatus.stable }

/-- One part of a session message returned by the opencode SDK (`part.Type`,
`part.Text`). -/
structure SessionPart where
  ptype : String
  text : String
  deriving DecidableEq, Repr

/-- One session message returned by `Session.Messages` (`Info.Role` and the
parts). -/
structure SessionMessage where
  role : String
  parts : List SessionPart
  deriving DecidableEq, Repr

/-- State of `httpapi.OpencodeClient`: message list and status (client handle,
session id and logger omitted). -/
structure OpencodeClient where
  messages : List ConversationMessage
  status : ConversationStatus
  deriving DecidableEq, Repr

/-- Embedding of `OpencodeClient.getNextMessageIDUnsafe`: the maximum existing
id (0 for an empty list) plus one. -/
def OpencodeClient.getNextMessageIDUnsafe (oc : OpencodeClient) : Nat :=
  (oc.messages.foldl (fun maxID m => max maxID m.Id) 0) + 1

/-- Append a message whose id is produced by `getNextMessageIDUnsafe`, the
pattern used for every append in `OpencodeClient.SendMessage`. -/
def OpencodeClient.appendMessage (oc : OpencodeClient) (r : ConversationRole)
    (text : String) (now : Nat) : OpencodeClient :=
  { oc with messages := oc.messages ++
      [{ Id := oc.getNextMessageIDUnsafe, Role := r, Message := text, Time := now }] }

/-- Embedding of the response-content accumulation in
`OpencodeClient.SendMessage`: concatenate `part.Text` over the parts whose
type is "text" or whose text is non-empty. -/
def extractResponseContent (parts : List SessionPart) : String :=
  parts.foldl (fun acc p => if p.ptype = "text" ∨ p.text ≠ "" then acc ++ p.text else acc) ""

/-- The session-message loop at the end of `OpencodeClient.SendMessage`: for
every fetched message with the assistant role whose extracted content is
non-empty, append an agent message with that content. -/
def appendAssistantReplies (oc : OpencodeClient)
    (sessionMessages : List SessionMessage) (now : Nat) : OpencodeClient :=
  sessionMessages.foldl (fun st sm =>
    if sm.role = "assistant" ∧ extractResponseContent sm.parts ≠ "" then
      st.appendMessage ConversationRole.agent (extractResponseContent sm.parts) now
    else st) oc

/-- Embedding of `httpapi.OpencodeClient.SendMessage`.  The call is fully
synchronous: it sets status to `changing`, appends the user message, performs
the chat request (`chat`), and on success fetches the session messages
(`fetch`) and appends every non-empty assistant reply, finishing with status
`stable`.  On a chat or fetch error an agent message carrying the error text
is appended and the status is set to `stable`.  Returns the final state and
the error (if any).  Note there is no busy check and no empty-content
check. -/
def OpencodeClient.sendMessage (oc : OpencodeClient) (content : String)
    (chat : Except String Unit) (fetch : Except String (List SessionMessage))
    (now : Nat) : OpencodeClient × Option String :=
  let oc1 : OpencodeClient := { oc with status := ConversationStatus.changing }
  let oc2 := oc1.appendMessage ConversationRole.user content now
  match chat with
  | Except.error e =>
      (({ oc2 with status := ConversationStatus.stable }).appendMessage
        ConversationRole.agent ("Error: " ++ e) now, some e)
  | Except.ok _ =>
      match fetch with
      | Except.error e =>
          (({ oc2 with status := ConversationStatus.stable }).appendMessage
            ConversationRole.agent ("Error getting response: " ++ e) now, some e)
      | Except.ok sessionMessages =>
          let oc3 := appendAssistantReplies oc2 sessionMessages now
          ({ oc3 with status := ConversationStatus.stable }, none)

/-- Initial `opencode.Conversation` state as built by `NewConversation`:
empty message list, status `stable`. -/
def conv0 : Conversation :=
  { messages := [], status := ConversationStatus.stable }

/-- Initial `httpapi.OpencodeClient` state as left by
`NewOpencodeClient`/`initSession`: one agent message with hard-coded id 1,
status `stable`. -/
def oc0 : OpencodeClient :=
  { messages := [{ Id := 1, Role := ConversationRole.agent,
                   Message := "Opencode session initialized. Ready for your requests.",
                   Time := 0 }],
    status := ConversationStatus.stable }

/-- Operations that mutate `opencode.Conversation` state over its lifetime:
the synchronous part of `SendMessage` and the completion of a dispatched
`sendMessageAsync`. -/
inductive ConvOp where
  | send (input : List String) (now : Nat)
  | asyncDone (outcome : ChatOutcome) (now : Nat)

/-- Apply one operation to a `Conversation` state. -/
def ConvOp.apply (c : Conversation) : ConvOp → Conversation
  | ConvOp.send input now => (c.sendMessage input now).1
  | ConvOp.asyncDone outcome now => c.sendMessageAsync outcome now

/-- Run a sequence of operations on a `Conversation` state. -/
def applyConvOps (c : Conversation) (ops : List ConvOp) : Conversation :=
  ops.foldl ConvOp.apply c

/-- One call to `OpencodeClient.SendMessage` with its environment: content,
chat outcome and fetch outcome. -/
structure OcOp where
  content : String
  chat : Except String Unit
  fetch : Except String (List SessionMessage)
  now : Nat

/-- Apply one `SendMessage` call to an `OpencodeClient` state. -/
def OcOp.apply (oc : OpencodeClient) (op : OcOp) : OpencodeClient :=
  (oc.sendMessage op.content op.chat op.fetch op.now).1

/-- Run a sequence of `SendMessage` calls on an `OpencodeClient` state. -/
def applyOcOps (oc : OpencodeClient) (ops : List OcOp) : OpencodeClient :=
  ops.foldl OcOp.apply oc

/-- Agent type, as far as `httpapi.Server.createMessage` distinguishes it:
the opencode REST backend versus a terminal-based agent. -/
inductive AgentType where
  | opencode
  | terminal
  deriving DecidableEq, Repr

/-- Embedding of the `MessageTypeRaw` arm of `httpapi.Server.createMessage`
(part_003): with the opencode agent type the request is rejected with
"raw message type not supported for opencode" before anything is written;
otherwise, with a terminal process present, the content bytes are written
verbatim.  The `Option String` in the success case is the bytes written to
the agent. -/
def serverCreateMessageRaw (agentType : AgentType) (hasAgentio : Bool)
    (content : String) : Except String (Option String) :=
  if agentType = AgentType.opencode then
    Except.error "raw message type not supported for opencode"
  else if hasAgentio = false then
    Except.error "no terminal agent available"
  else
    Except.ok (some content)

/-- Embedding of the `MessageTypeRaw` arm of the test server
`OpenCodeServer.createMessage` (lib/opencode/integration_test.go): raw
messages are forwarded to `Conversation.SendMessage` exactly like user
messages.  On success the result is the new conversation state and the
content dispatched to the agent. -/
def ocServerCreateMessageRaw (conv : Conversation) (content : String) (now : Nat) :
    Except String (Conversation × Option String) :=
  match conv.sendMessage [content] now with
  | (c', none, dispatched) => Except.ok (c', dispatched)
  | (_, some _, _) => Except.error "failed to send message"

/-- Wire event types of the emitter (`EventTypeMessageUpdate`,
`EventTypeStatusChange`, `EventTypeScreenUpdate`). -/
inductive EventType where
  | messageUpdate
  | statusChange
  | screenUpdate
  deriving DecidableEq, Repr

/-- An emitted event: the type together with its payload. -/
inductive EmittedEvent where
  | messageUpdate (m : ConversationMessage)
  | statusChange (s : ConversationStatus)
  | screenUpdate (s : String)
  deriving DecidableEq, Repr

/-- The type tag of an emitted event. -/
def EmittedEvent.etype : EmittedEvent → EventType
  | EmittedEvent.messageUpdate _ => EventType.messageUpdate
  | EmittedEvent.statusChange _ => EventType.statusChange
  | EmittedEvent.screenUpdate _ => EventType.screenUpdate

/-- Embedding of the delivery loops of `Server.subscribeEvents` (part_003):
both the replay batch and the live events are forwarded with every
`screen_update` event skipped, replay batch strictly first. -/
def eventsStreamDelivered (replay live : List EmittedEvent) : List EmittedEvent :=
  replay.filter (fun e => !(e.etype == EventType.screenUpdate)) ++
  live.filter (fun e => !(e.etype == EventType.screenUpdate))

/-- Embedding of the delivery loops of `Server.subscribeScreen` (part_003):
both the replay batch and the live events are forwarded with everything but
`screen_update` events skipped, replay batch strictly first. -/
def screenStreamDelivered (replay live : List EmittedEvent) : List EmittedEvent :=
  replay.filter (fun e => e.etype == EventType.screenUpdate) ++
  live.filter (fun e => e.etype == EventType.screenUpdate)

/-- Modelled from the spec: `EventEmitter.Subscribe` is not under src/ (only
its callers are), so its replay batch is taken from spec section 4.2 — synthetic
events reconstructing the current status, then the full current message list
(one event per message), then the current screen, in the status-before-
messages-before-screen order of spec section 5. -/
def subscribeReplayBatch (status : ConversationStatus)
    (msgs : List ConversationMessage) (screen : String) : List EmittedEvent :=
  EmittedEvent.statusChange status ::
    (msgs.map EmittedEvent.messageUpdate ++ [EmittedEvent.screenUpdate screen])

/-- Modelled from the spec: the Event Emitter implementation is not under
src/; its state is the last-broadcast copy of status, messages and screen
(spec section 4.2), absent before the first broadcast. -/
structure EventEmitter where
  lastStatus : Option ConversationStatus
  lastMessages : List ConversationMessage
  lastScreen : Option String
  deriving DecidableEq, Repr

/-- Look up the last-broadcast copy of the message with the given id. -/
def findMsg : List ConversationMessage → Nat → Option ConversationMessage
  | [], _ => none
  | x :: xs, i => if x.Id = i then some x else findMsg xs i

/-- Update (or insert) the last-broadcast copy of a message, keyed by id. -/
def setMsg : List ConversationMessage → ConversationMessage → List ConversationMessage
  | [], m => [m]
  | x :: xs, m => if x.Id = m.Id then m :: xs else x :: setMsg xs m

/-- Modelled from the spec: `UpdateStatusAndEmitChanges` — compare to the
last-broadcast status; if different, emit one `status_change` event and
update the last-broadcast copy. -/
def EventEmitter.updateStatus (em : EventEmitter) (s : ConversationStatus) :
    List EmittedEvent × EventEmitter :=
  if em.lastStatus = some s then ([], em)
  else ([EmittedEvent.statusChange s], { em with lastStatus := some s })

/-- Modelled from the spec: a message is broadcast when its id is new or its
content differs from the last-broadcast copy. -/
def msgChanged (lastMessages : List ConversationMessage) (m : ConversationMessage) : Bool :=
  match findMsg lastMessages m.Id with
  | none => true
  | some old => !(old.Message == m.Message)

/-- Modelled from the spec: one message of `UpdateMessagesAndEmitChanges` —
emit a `message_update` carrying the full message when its id is new or its
content differs from the last-broadcast copy, updating the last-broadcast
copy alongside; otherwise nothing. -/
def stepMsg (acc : List EmittedEvent × EventEmitter) (m : ConversationMessage) :
    List EmittedEvent × EventEmitter :=
  if msgChanged acc.2.lastMessages m then
    (acc.1 ++ [EmittedEvent.messageUpdate m],
     { acc.2 with lastMessages := setMsg acc.2.lastMessages m })
  else acc

/-- Modelled from the spec: `UpdateMessagesAndEmitChanges` over a full
message list, processing messages in order. -/
def EventEmitter.updateMessages (em : EventEmitter) (msgs : List ConversationMessage) :
    List EmittedEvent × EventEmitter :=
  msgs.foldl stepMsg ([], em)

/-- Modelled from the spec: `UpdateScreenAndEmitChanges` — same pattern as
the status update with a single `screen_update` event type. -/
def EventEmitter.updateScreen (em : EventEmitter) (scr : String) :
    List EmittedEvent × EventEmitter :=
  if em.lastScreen = some scr then ([], em)
  else ([EmittedEvent.screenUpdate scr], { em with lastScreen := some scr })

/-- One polled state snapshot fed to the emitter by the broadcast loop
(`StartSnapshotLoop`): status, messages and screen. -/
structure TickInput where
  status : ConversationStatus
  msgs : List ConversationMessage
  screen : String

/-- One tick of the broadcast loop: status, then messages, then screen, the
order used by `StartSnapshotLoop` in part_003. -/
def EventEmitter.tick (em : EventEmitter) (i : TickInput) :
    List EmittedEvent × EventEmitter :=
  let r1 := em.updateStatus i.status
  let r2 := r1.2.updateMessages i.msgs
  let r3 := r2.2.updateScreen i.screen
  (r1.1 ++ r2.1 ++ r3.1, r3.2)

/-- One step of the broadcast loop run: perform a tick and concatenate its
events after those already emitted. -/
def runStep (acc : List EmittedEvent × EventEmitter) (i : TickInput) :
    List EmittedEvent × EventEmitter :=
  (acc.1 ++ (acc.2.tick i).1, (acc.2.tick i).2)

/-- Run the broadcast loop over a sequence of polled snapshots, concatenating
the emitted events in order. -/
def EventEmitter.run (em : EventEmitter) (inputs : List TickInput) :
    List EmittedEvent × EventEmitter :=
  inputs.foldl runStep ([], em)

/-- Adjacent-deduplication property: no two consecutive events of the same
type carry identical payloads. -/
def adjOk (evs : List EmittedEvent) : Prop :=
  List.Chain' (fun a b => a.etype = b.etype → a ≠ b) evs

/-- Relation between the emitter state and the most recently emitted event:
each last-broadcast component agrees with the payload of the last event of
its kind, which is what prevents an immediate duplicate. -/
def lastEventConsistent (em : EventEmitter) : Option EmittedEvent → Prop
  | none => True
  | some (EmittedEvent.statusChange s) => em.lastStatus = some s
  | some (EmittedEvent.screenUpdate sc) => em.lastScreen = some sc
  | some (EmittedEvent.messageUpdate m) =>
      ∃ old, findMsg em.lastMessages m.Id = some old ∧ old.Message = m.Message

/-- A heap of Go slices of conversation messages: cell index = reference to a
backing array.  Used to state the defensive-copy property of `Messages()`. -/
structure SliceHeap where
  cells : List (List ConversationMessage)
  deriving Repr

/-- Read the slice behind a reference. -/
def SliceHeap.read (h : SliceHeap) (r : Nat) : List ConversationMessage :=
  h.cells.getD r []

/-- Allocate a fresh backing array holding the given contents, as
`append([]ConversationMessage{}, src...)` does, and return its reference. -/
def SliceHeap.alloc (h : SliceHeap) (v : List ConversationMessage) : Nat × SliceHeap :=
  (h.cells.length, { cells := h.cells ++ [v] })

/-- Overwrite the slice behind a reference (a caller mutating a returned
slice in place). -/
def SliceHeap.write (h : SliceHeap) (r : Nat) (v : List ConversationMessage) : SliceHeap :=
  { cells := h.cells.set r v }

/-- Embedding of `Conversation.Messages` / `OpencodeClient.Messages`: both
return `append([]st.ConversationMessage{}, c.messages...)` (respectively a
`make` + `copy`), i.e. a freshly allocated slice holding the same elements as
the internal list referenced by `convRef`. -/
def messagesOp (h : SliceHeap) (convRef : Nat) : Nat × SliceHeap :=
  h.alloc (h.read convRef)

/-- The id invariant of `opencode.Conversation`: message ids are exactly
`0, 1, ..., n-1` in order (`Id = len(messages)` at each append). -/
def convGoodIds (c : Conversation) : Prop :=
  c.messages.map (fun m => m.Id) = List.range c.messages.length

/-- The id invariant of `httpapi.OpencodeClient`: message ids are exactly
`1, 2, ..., n` in order (id 1 from `initSession`, then `max + 1` at each
append). -/
def ocGoodIds (oc : OpencodeClient) : Prop :=
  oc.messages.map (fun m => m.Id) = List.range' 1 oc.messages.length

/-- An `OpencodeClient` state with a turn in flight (status `changing`),
used as a concrete input. -/
def ocBusyExample : OpencodeClient :=
  { messages := [{ Id := 1, Role := ConversationRole.agent, Message := "init", Time := 0 }],
    status := ConversationStatus.changing }

/-- A `Conversation` state with a turn in flight (status `changing`), used
as a concrete input. -/
def convInFlightExample : Conversation :=
  { messages := [{ Id := 0, Role := ConversationRole.user, Message := "ping", Time := 0 }],
    status := ConversationStatus.changing }

/-- A fetched session message carrying one assistant text reply, used as a
concrete input. -/
def assistantReplyExample : SessionMessage :=
  { role := "assistant", parts := [{ ptype := "text", text := "pong" }] }

/-- A one-cell slice heap whose cell 0 is the tracker-owned message list,
used as a concrete input. -/
def sliceHeapExample : SliceHeap :=
  { cells := [[{ Id := 0, Role := ConversationRole.user, Message := "hello", Time := 3 }]] }

/-! ## Helper lemmas -/

theorem sendMessage_busy (c : Conversation) (input : List String) (now : Nat)
    (h : c.status = ConversationStatus.changing) :
    c.sendMessage input now = (c, some SendError.agentBusy, none) := by
  simp [Conversation.sendMessage, h]

theorem sendMessage_ok (c : Conversation) (input : List String) (now : Nat)
    (hs : c.status = ConversationStatus.stable) (hne : goJoin " " input ≠ "") :
    c.sendMessage input now =
      ({ messages := c.messages ++
           [{ Id := c.messages.length, Role := ConversationRole.user,
              Message := goJoin " " input, Time := now }],
         status := ConversationStatus.changing }, none, some (goJoin " " input)) := by
  simp [Conversation.sendMessage, hs, hne]

theorem appendMessage_messages (oc : OpencodeClient) (r : ConversationRole)
    (t : String) (now : Nat) :
    (oc.appendMessage r t now).messages
      = oc.messages ++
        [{ Id := oc.getNextMessageIDUnsafe, Role := r, Message := t, Time := now }] := rfl

theorem appendMessage_status (oc : OpencodeClient) (r : ConversationRole)
    (t : String) (now : Nat) :
    (oc.appendMessage r t now).status = oc.status := rfl

theorem appendAssistantReplies_shape :
    ∀ (l : List SessionMessage) (oc : OpencodeClient) (now : Nat),
      (appendAssistantReplies oc l now).status = oc.status ∧
      ∃ tail, (appendAssistantReplies oc l now).messages = oc.messages ++ tail := by
  intro l
  induction l with
  | nil =>
      intro oc now
      exact ⟨rfl, [], by simp [appendAssistantReplies]⟩
  | cons sm rest ih =>
      intro oc now
      have hstep : appendAssistantReplies oc (sm :: rest) now
          = appendAssistantReplies
              (if sm.role = "assistant" ∧ extractResponseContent sm.parts ≠ "" then
                oc.appendMessage ConversationRole.agent (extractResponseContent sm.parts) now
              else oc) rest now := rfl
      by_cases hc : sm.role = "assistant" ∧ extractResponseContent sm.parts ≠ ""
      · rw [hstep, if_pos hc]
        obtain ⟨hs1, t, ht⟩ :=
          ih (oc.appendMessage ConversationRole.agent (extractResponseContent sm.parts) now) now
        refine ⟨by rw [hs1, appendMessage_status],
          { Id := oc.getNextMessageIDUnsafe, Role := ConversationRole.agent,
            Message := extractResponseContent sm.parts, Time := now } :: t, ?_⟩
        rw [ht, appendMessage_messages]
        simp
      · rw [hstep, if_neg hc]
        exact ih oc now

theorem ocSendMessage_messages (oc : OpencodeClient) (content : String)
    (chat : Except String Unit) (fetch : Except String (List SessionMessage)) (now : Nat) :
    ∃ tail, ((oc.sendMessage content chat fetch now).1).messages
      = (oc.messages ++
          [{ Id := oc.getNextMessageIDUnsafe, Role := ConversationRole.user,
             Message := content, Time := now }]) ++ tail := by
  cases chat with
  | error e => exact ⟨_, rfl⟩
  | ok u =>
      cases fetch with
      | error e => exact ⟨_, rfl⟩
      | ok l =>
          obtain ⟨_hs, tail, ht⟩ :=
            appendAssistantReplies_shape l
              (({ oc with status := ConversationStatus.changing }).appendMessage
                ConversationRole.user content now) now
          exact ⟨tail, by
            show (appendAssistantReplies _ l now).messages = _
            rw [ht]
            rfl⟩

theorem ocSendMessage_status (oc : OpencodeClient) (content : String)
    (chat : Except String Unit) (fetch : Except String (List SessionMessage)) (now : Nat) :
    ((oc.sendMessage content chat fetch now).1).status = ConversationStatus.stable := by
  cases chat with
  | error e => rfl
  | ok u =>
      cases fetch with
      | error e => rfl
      | ok l => rfl

theorem foldl_max_id (l : List ConversationMessage) (a : Nat) :
    l.foldl (fun x m => max x m.Id) a = (l.map (fun m => m.Id)).foldl max a := by
  induction l generalizing a with
  | nil => rfl
  | cons x xs ih => simp only [List.foldl_cons, List.map_cons]; exact ih (max a x.Id)

theorem foldl_max_range' (n : Nat) : List.foldl max 0 (List.range' 1 n) = n := by
  induction n with
  | zero => rfl
  | succ k ih =>
      rw [List.range'_concat, List.foldl_append, ih]
      have h1 : List.foldl max k [1 + 1 * k] = max k (1 + 1 * k) := rfl
      rw [h1]
      omega

theorem nextId_eq (oc : OpencodeClient) (h : ocGoodIds oc) :
    oc.getNextMessageIDUnsafe = oc.messages.length + 1 := by
  have hm : oc.messages.map (fun m => m.Id) = List.range' 1 oc.messages.length := h
  show oc.messages.foldl (fun maxID m => max maxID m.Id) 0 + 1 = _
  rw [foldl_max_id, hm, foldl_max_range']

theorem appendMessage_goodIds (oc : OpencodeClient) (r : ConversationRole)
    (t : String) (now : Nat) (h : ocGoodIds oc) :
    ocGoodIds (oc.appendMessage r t now) := by
  have hm : oc.messages.map (fun m => m.Id) = List.range' 1 oc.messages.length := h
  show (oc.appendMessage r t now).messages.map (fun m => m.Id)
      = List.range' 1 (oc.appendMessage r t now).messages.length
  rw [appendMessage_messages, List.map_append, List.length_append, hm, nextId_eq oc h]
  simp [List.range'_concat, Nat.add_comm]

theorem appendAssistantReplies_goodIds :
    ∀ (l : List SessionMessage) (oc : OpencodeClient) (now : Nat),
      ocGoodIds oc → ocGoodIds (appendAssistantReplies oc l now) := by
  intro l
  induction l with
  | nil => intro oc now h; exact h
  | cons sm rest ih =>
      intro oc now h
      have hstep : appendAssistantReplies oc (sm :: rest) now
          = appendAssistantReplies
              (if sm.role = "assistant" ∧ extractResponseContent sm.parts ≠ "" then
                oc.appendMessage ConversationRole.agent (extractResponseContent sm.parts) now
              else oc) rest now := rfl
      rw [hstep]
      by_cases hc : sm.role = "assistant" ∧ extractResponseContent sm.parts ≠ ""
      · rw [if_pos hc]
        exact ih _ now (appendMessage_goodIds _ _ _ _ h)
      · rw [if_neg hc]
        exact ih oc now h

theorem ocSendMessage_goodIds (oc : OpencodeClient) (content : String)
    (chat : Except String Unit) (fetch : Except String (List SessionMessage)) (now : Nat)
    (h : ocGoodIds oc) : ocGoodIds ((oc.sendMessage content chat fetch now).1) := by
  have h2 : ocGoodIds (({ oc with status := ConversationStatus.changing }
      : OpencodeClient).appendMessage ConversationRole.user content now) :=
    appendMessage_goodIds _ _ _ _ h
  cases chat with
  | error e => exact appendMessage_goodIds _ _ _ _ h2
  | ok u =>
      cases fetch with
      | error e => exact appendMessage_goodIds _ _ _ _ h2
      | ok l => exact appendAssistantReplies_goodIds l _ now h2

/-! ## C1: busy rejection -/

/-- C1 (amended): while the status is `changing`,
`opencode.Conversation.SendMessage` fails synchronously with the AgentBusy
error, leaving the conversation state unchanged and dispatching nothing;
`httpapi.OpencodeClient.SendMessage` performs no busy check — called while
the status is `changing` it still appends the user message and proceeds
rather than failing with AgentBusy. -/
theorem claim1_busy_semantics :
    (∀ (c : Conversation) (input : List String) (now : Nat),
      c.status = ConversationStatus.changing →
      c.sendMessage input now = (c, some SendError.agentBusy, none))
    ∧
    (∀ (oc : OpencodeClient) (content : String) (chat : Except String Unit)
        (fetch : Except String (List SessionMessage)) (now : Nat),
      oc.status = ConversationStatus.changing →
      (oc.messages ++
        [{ Id := oc.getNextMessageIDUnsafe, Role := ConversationRole.user,
           Message := content, Time := now }])
        <+: ((oc.sendMessage content chat fetch now).1).messages) := by
  constructor
  · intro c input now h
    exact sendMessage_busy c input now h
  · intro oc content chat fetch now _h
    obtain ⟨tail, ht⟩ := ocSendMessage_messages oc content chat fetch now
    exact ⟨tail, ht.symm⟩

/-- C1 counterexample: a concrete `OpencodeClient.SendMessage` call made
while the status is `changing` returns no error at all and mutates the
message list, contradicting the claim that every such call fails with
AgentBusy and leaves state unchanged. -/
theorem claim1_counterexample :
    ocBusyExample.status = ConversationStatus.changing ∧
    (ocBusyExample.sendMessage "hi" (Except.ok ()) (Except.ok []) 1).2 = none ∧
    ((ocBusyExample.sendMessage "hi" (Except.ok ()) (Except.ok []) 1).1).messages
      ≠ ocBusyExample.messages := by
  decide

/-- C1 witness: the amended theorem applied at concrete busy states. -/
theorem claim1_witness :
    convInFlightExample.sendMessage ["hello"] 7
        = (convInFlightExample, some SendError.agentBusy, none) ∧
    (ocBusyExample.messages ++
      [{ Id := ocBusyExample.getNextMessageIDUnsafe, Role := ConversationRole.user,
         Message := "hi", Time := 1 }])
      <+: ((ocBusyExample.sendMessage "hi" (Except.ok ()) (Except.ok []) 1).1).messages :=
  ⟨claim1_busy_semantics.1 convInFlightExample ["hello"] 7 rfl,
   claim1_busy_semantics.2 ocBusyExample "hi" (Except.ok ()) (Except.ok []) 1 rfl⟩

/-! ## C8: empty-input rejection -/

/-- C8 (amended): every `Conversation.SendMessage` call whose formatted
(joined) payload is empty fails synchronously — no message appended, no
state mutated, nothing dispatched.  The error is EmptyInput when the status
is `stable`, but AgentBusy — which is checked first — when the status is
`changing`. -/
theorem claim8_empty_semantics (c : Conversation) (input : List String) (now : Nat)
    (he : goJoin " " input = "") :
    (c.sendMessage input now).1 = c ∧
    (c.sendMessage input now).2.2 = none ∧
    (c.status = ConversationStatus.stable →
      (c.sendMessage input now).2.1 = some SendError.emptyInput) ∧
    (c.status = ConversationStatus.changing →
      (c.sendMessage input now).2.1 = some SendError.agentBusy) := by
  by_cases hs : c.status = ConversationStatus.changing
  · rw [sendMessage_busy c input now hs]
    refine ⟨rfl, rfl, ?_, fun _ => rfl⟩
    intro hstable
    rw [hs] at hstable
    exact absurd hstable (by decide)
  · have hs' : c.status = ConversationStatus.stable := by
      cases h2 : c.status
      · rfl
      · exact absurd h2 hs
    have hcall : c.sendMessage input now = (c, some SendError.emptyInput, none) := by
      simp [Conversation.sendMessage, hs', he]
    rw [hcall]
    exact ⟨rfl, rfl, fun _ => rfl, fun hch => absurd hch hs⟩

/-- C8 counterexample: with the status `changing` and an empty formatted
payload, the concrete call fails with AgentBusy, not EmptyInput. -/
theorem claim8_counterexample :
    goJoin " " [""] = "" ∧
    (convInFlightExample.sendMessage [""] 0).2.1 = some SendError.agentBusy ∧
    (convInFlightExample.sendMessage [""] 0).2.1 ≠ some SendError.emptyInput := by
  decide

/-- C8 witness: the amended theorem applied at a concrete empty-payload
call. -/
theorem claim8_witness :
    (conv0.sendMessage [""] 2).1 = conv0 ∧
    (conv0.sendMessage [""] 2).2.2 = none ∧
    (conv0.status = ConversationStatus.stable →
      (conv0.sendMessage [""] 2).2.1 = some SendError.emptyInput) ∧
    (conv0.status = ConversationStatus.changing →
      (conv0.sendMessage [""] 2).2.1 = some SendError.agentBusy) :=
  claim8_empty_semantics conv0 [""] 2 rfl

/-! ## C10: variadic join semantics -/

theorem goJoin_replicate_empty (k : Nat) :
    (goJoin " " (List.replicate (k + 1) "")).data = List.replicate k ' ' := by
  induction k with
  | zero => rfl
  | succ j ih =>
      have hrep : List.replicate (j + 2) ("" : String) = "" :: "" :: List.replicate j "" := by
        simp [List.replicate_succ]
      rw [hrep]
      show (("" : String) ++ " " ++ goJoin " " ("" :: List.replicate j "")).data
          = List.replicate (j + 1) ' '
      rw [String.data_append, String.data_append]
      have hr1 : ("" : String) :: List.replicate j "" = List.replicate (j + 1) "" := by
        simp [List.replicate_succ]
      rw [hr1, ih]
      simp [List.replicate_succ]

/-- C10: on the REST-backed opencode conversation the stored user message
content is the arguments joined with single spaces; the empty-input rejection
fires exactly when the joined string is empty, so two or more empty-string
arguments yield a whitespace-only, non-empty payload and the call is
accepted. -/
theorem claim10_join_semantics (c : Conversation) (input : List String) (now : Nat)
    (hs : c.status = ConversationStatus.stable) :
    (goJoin " " input = "" →
      c.sendMessage input now = (c, some SendError.emptyInput, none)) ∧
    (goJoin " " input ≠ "" →
      c.sendMessage input now =
        ({ messages := c.messages ++
             [{ Id := c.messages.length, Role := ConversationRole.user,
                Message := goJoin " " input, Time := now }],
           status := ConversationStatus.changing }, none, some (goJoin " " input))) ∧
    (∀ n : Nat, 2 ≤ n → input = List.replicate n "" →
      (goJoin " " input).data = List.replicate (n - 1) ' ' ∧
      goJoin " " input ≠ "" ∧
      (c.sendMessage input now).2.1 = none) := by
  refine ⟨?_, ?_, ?_⟩
  · intro he
    simp [Conversation.sendMessage, hs, he]
  · intro hne
    exact sendMessage_ok c input now hs hne
  · intro n hn hrep
    obtain ⟨k, rfl⟩ : ∃ k, n = k + 2 := ⟨n - 2, by omega⟩
    subst hrep
    have hdata : (goJoin " " (List.replicate (k + 2) "")).data
        = List.replicate (k + 1) ' ' := goJoin_replicate_empty (k + 1)
    have hne : goJoin " " (List.replicate (k + 2) "") ≠ "" := by
      intro h0
      rw [h0] at hdata
      have hnil : ([] : List Char) = List.replicate (k + 1) ' ' := hdata
      simp [List.replicate_succ] at hnil
    refine ⟨hdata, hne, ?_⟩
    rw [sendMessage_ok c _ now hs hne]

/-- C10 witness: the theorem applied to a concrete two-empty-argument call. -/
theorem claim10_witness :
    (goJoin " " ["", ""]).data = List.replicate 1 ' ' ∧
    goJoin " " ["", ""] ≠ "" ∧
    (conv0.sendMessage ["", ""] 0).2.1 = none :=
  (claim10_join_semantics conv0 ["", ""] 0 rfl).2.2 2 (by decide) rfl

/-! ## C3: return-on-dispatch -/

/-- C3 (amended): a successful `opencode.Conversation.SendMessage` returns as
soon as in-memory state is updated and the content is dispatched — at return
exactly one user message has been appended, the status is `changing`, and the
agent message is added only by the later asynchronous completion.  By
contrast, `httpapi.OpencodeClient.SendMessage` is synchronous: at return the
status is already back to `stable`. -/
theorem claim3_async_return :
    (∀ (c : Conversation) (input : List String) (now : Nat),
      c.status = ConversationStatus.stable → goJoin " " input ≠ "" →
      c.sendMessage input now =
        ({ messages := c.messages ++
             [{ Id := c.messages.length, Role := ConversationRole.user,
                Message := goJoin " " input, Time := now }],
           status := ConversationStatus.changing }, none, some (goJoin " " input)))
    ∧
    (∀ (c : Conversation) (parts : List String) (now : Nat),
      c.sendMessageAsync (ChatOutcome.success parts) now =
        { messages := c.messages ++
            [{ Id := c.messages.length, Role := ConversationRole.agent,
               Message := formatMessageParts parts, Time := now }],
          status := ConversationStatus.stable })
    ∧
    (∀ (oc : OpencodeClient) (content : String) (chat : Except String Unit)
        (fetch : Except String (List SessionMessage)) (now : Nat),
      ((oc.sendMessage content chat fetch now).1).status = ConversationStatus.stable) :=
  ⟨fun c input now hs hne => sendMessage_ok c input now hs hne,
   fun _c _parts _now => rfl,
   fun oc content chat fetch now => ocSendMessage_status oc content chat fetch now⟩

/-- C3 counterexample: a concrete successful `OpencodeClient.SendMessage`
call has, already at return, status `stable` (not `changing`) and the agent
reply appended — the call blocked for the agent's response instead of
returning on dispatch. -/
theorem claim3_counterexample :
    (oc0.sendMessage "ping" (Except.ok ()) (Except.ok [assistantReplyExample]) 1).2 = none ∧
    ((oc0.sendMessage "ping" (Except.ok ()) (Except.ok [assistantReplyExample]) 1).1).status
      ≠ ConversationStatus.changing ∧
    ((oc0.sendMessage "ping" (Except.ok ()) (Except.ok [assistantReplyExample]) 1).1).messages.getLast?
      = some { Id := 3, Role := ConversationRole.agent, Message := "pong", Time := 1 } := by
  decide

/-- C3 witness: the amended theorem applied at concrete inputs. -/
theorem claim3_witness :
    conv0.sendMessage ["hi"] 4
        = ({ messages := [{ Id := 0, Role := ConversationRole.user,
                            Message := "hi", Time := 4 }],
             status := ConversationStatus.changing }, none, some "hi") ∧
    ((oc0.sendMessage "x" (Except.ok ()) (Except.ok []) 0).1).status
        = ConversationStatus.stable :=
  ⟨claim3_async_return.1 conv0 ["hi"] 4 rfl (by decide),
   claim3_async_return.2.2 oc0 "x" (Except.ok ()) (Except.ok []) 0⟩

/-! ## C4: write-failure handling -/

theorem ocSendMessage_chatError (oc : OpencodeClient) (content e : String)
    (fetch : Except String (List SessionMessage)) (now : Nat) (h : ocGoodIds oc) :
    ((oc.sendMessage content (Except.error e) fetch now).1).messages
      = oc.messages ++
        [{ Id := oc.messages.length + 1, Role := ConversationRole.user,
           Message := content, Time := now },
         { Id := oc.messages.length + 2, Role := ConversationRole.agent,
           Message := "Error: " ++ e, Time := now }] := by
  have hid1 : oc.getNextMessageIDUnsafe = oc.messages.length + 1 := nextId_eq oc h
  have hshape : ((oc.sendMessage content (Except.error e) fetch now).1).messages
      = (oc.messages ++
          [{ Id := oc.getNextMessageIDUnsafe, Role := ConversationRole.user,
             Message := content, Time := now }])
        ++ [{ Id := (({ oc with status := ConversationStatus.changing }
                : OpencodeClient).appendMessage ConversationRole.user content
                now).getNextMessageIDUnsafe,
              Role := ConversationRole.agent, Message := "Error: " ++ e,
              Time := now }] := rfl
  have h2 : ocGoodIds (({ oc with status := ConversationStatus.changing }
      : OpencodeClient).appendMessage ConversationRole.user content now) :=
    appendMessage_goodIds _ _ _ _ h
  have hlen2 : (({ oc with status := ConversationStatus.changing }
      : OpencodeClient).appendMessage ConversationRole.user content now).messages.length
      = oc.messages.length + 1 := by
    rw [appendMessage_messages, List.length_append]
    rfl
  have hid2 : (({ oc with status := ConversationStatus.changing }
      : OpencodeClient).appendMessage ConversationRole.user content
      now).getNextMessageIDUnsafe = oc.messages.length + 2 := by
    rw [nextId_eq _ h2, hlen2]
  rw [hshape, hid1, hid2]
  simp

/-- C4 (amended): when the outbound write fails, the status is forced back to
`stable` and the send is not retried; `httpapi.OpencodeClient` additionally
records the failure as an agent message "Error: <description>", while the
lib/opencode `Conversation` records nothing — the failure is only logged and
the message list is left unchanged. -/
theorem claim4_failure_semantics :
    (∀ (c : Conversation) (e : String) (now : Nat),
      c.sendMessageAsync (ChatOutcome.failure e) now
        = { messages := c.messages, status := ConversationStatus.stable })
    ∧
    (∀ (oc : OpencodeClient) (content e : String)
        (fetch : Except String (List SessionMessage)) (now : Nat),
      ocGoodIds oc →
      ((oc.sendMessage content (Except.error e) fetch now).1).status
          = ConversationStatus.stable ∧
      ((oc.sendMessage content (Except.error e) fetch now).1).messages
        = oc.messages ++
          [{ Id := oc.messages.length + 1, Role := ConversationRole.user,
             Message := content, Time := now },
           { Id := oc.messages.length + 2, Role := ConversationRole.agent,
             Message := "Error: " ++ e, Time := now }]) :=
  ⟨fun _c _e _now => rfl,
   fun oc content e fetch now h =>
    ⟨ocSendMessage_status oc content (Except.error e) fetch now,
     ocSendMessage_chatError oc content e fetch now h⟩⟩

/-- C4 counterexample: a concrete failed async send on the lib/opencode
`Conversation` leaves the message list unchanged — no agent message with an
error description is recorded — refuting that part of the claim (the status
is indeed forced back to `stable`). -/
theorem claim4_counterexample :
    (convInFlightExample.sendMessageAsync (ChatOutcome.failure "connection refused") 5).messages
      = convInFlightExample.messages ∧
    (convInFlightExample.sendMessageAsync (ChatOutcome.failure "connection refused") 5).status
      = ConversationStatus.stable := by
  decide

/-- C4 witness: the amended theorem applied at a concrete failing send. -/
theorem claim4_witness :
    ((oc0.sendMessage "hi" (Except.error "econnrefused") (Except.ok []) 9).1).status
        = ConversationStatus.stable ∧
    ((oc0.sendMessage "hi" (Except.error "econnrefused") (Except.ok []) 9).1).messages
      = oc0.messages ++
        [{ Id := 2, Role := ConversationRole.user, Message := "hi", Time := 9 },
         { Id := 3, Role := ConversationRole.agent, Message := "Error: econnrefused", Time := 9 }] :=
  claim4_failure_semantics.2 oc0 "hi" "econnrefused" (Except.ok []) 9
    (by unfold ocGoodIds; decide)

/-! ## C7: raw passthrough on the REST backend -/

/-- C7 (amended): on the main `httpapi.Server`, a POST /message of type raw
with the opencode agent type fails synchronously with the
unsupported-operation error and nothing is written to the agent; the test
`OpenCodeServer` instead treats raw like a user message — it forwards the
content to `Conversation.SendMessage` and succeeds, dispatching a write. -/
theorem claim7_raw_semantics :
    (∀ (hasAgentio : Bool) (content : String),
      serverCreateMessageRaw AgentType.opencode hasAgentio content
        = Except.error "raw message type not supported for opencode")
    ∧
    (∀ (c : Conversation) (content : String) (now : Nat),
      c.status = ConversationStatus.stable → content ≠ "" →
      ocServerCreateMessageRaw c content now
        = Except.ok
            ({ messages := c.messages ++
                 [{ Id := c.messages.length, Role := ConversationRole.user,
                    Message := content, Time := now }],
               status := ConversationStatus.changing }, some content)) := by
  constructor
  · intro hasAgentio content
    rfl
  · intro c content now hs hne
    unfold ocServerCreateMessageRaw
    rw [sendMessage_ok c [content] now hs hne]
    rfl

/-- C7 counterexample: a concrete raw request served by the REST-backed
`OpenCodeServer` succeeds and dispatches a write to the agent, refuting the
claim that every raw request on the REST backend fails with an
unsupported-operation error and writes nothing. -/
theorem claim7_counterexample :
    ocServerCreateMessageRaw conv0 "abc" 0
      = Except.ok
          ({ messages := [{ Id := 0, Role := ConversationRole.user,
                            Message := "abc", Time := 0 }],
             status := ConversationStatus.changing }, some "abc") := by
  rfl

/-- C7 witness: the amended theorem applied at concrete requests. -/
theorem claim7_witness :
    serverCreateMessageRaw AgentType.opencode true "ctrl-c"
        = Except.error "raw message type not supported for opencode" ∧
    ocServerCreateMessageRaw conv0 "xyz" 3
        = Except.ok
            ({ messages := [{ Id := 0, Role := ConversationRole.user,
                              Message := "xyz", Time := 3 }],
               status := ConversationStatus.changing }, some "xyz") :=
  ⟨claim7_raw_semantics.1 true "ctrl-c",
   claim7_raw_semantics.2 conv0 "xyz" 3 rfl (by decide)⟩

/-! ## C9: defensive copy of Messages() -/

/-- C9: `Messages()` returns a defensive copy — the returned slice is
element-wise equal to the internal list at call time, backed by a fresh
allocation distinct from the tracker-owned one, and overwriting the returned
slice leaves the internal list (as observed by later reads) unchanged. -/
theorem claim9_defensive_copy (h : SliceHeap) (convRef : Nat)
    (hr : convRef < h.cells.length) :
    ((messagesOp h convRef).2).read (messagesOp h convRef).1 = h.read convRef ∧
    (messagesOp h convRef).1 ≠ convRef ∧
    (∀ v, (((messagesOp h convRef).2).write (messagesOp h convRef).1 v).read convRef
      = h.read convRef) := by
  refine ⟨?_, ?_, ?_⟩
  · show (h.cells ++ [h.read convRef]).getD h.cells.length [] = h.read convRef
    rw [List.getD_eq_getElem?_getD, List.getElem?_concat_length]
    rfl
  · show h.cells.length ≠ convRef
    omega
  · intro v
    show ((h.cells ++ [h.read convRef]).set h.cells.length v).getD convRef []
        = h.read convRef
    rw [List.getD_eq_getElem?_getD, List.getElem?_set_ne (by omega),
      List.getElem?_append_left hr, ← List.getD_eq_getElem?_getD]
    rfl

/-- C9 witness: the theorem applied to a concrete one-cell heap, with the
returned slice overwritten by the empty list. -/
theorem claim9_witness :
    ((messagesOp sliceHeapExample 0).2).read (messagesOp sliceHeapExample 0).1
        = sliceHeapExample.read 0 ∧
    (messagesOp sliceHeapExample 0).1 ≠ 0 ∧
    (((messagesOp sliceHeapExample 0).2).write (messagesOp sliceHeapExample 0).1 []).read 0
      = sliceHeapExample.read 0 := by
  obtain ⟨h1, h2, h3⟩ := claim9_defensive_copy sliceHeapExample 0 (by decide)
  exact ⟨h1, h2, h3 []⟩

/-! ## C2: message id discipline -/

theorem status_stable_or_changing (c : Conversation) :
    c.status = ConversationStatus.stable ∨ c.status = ConversationStatus.changing := by
  cases h : c.status
  · exact Or.inl rfl
  · exact Or.inr rfl

theorem sendMessage_empty (c : Conversation) (input : List String) (now : Nat)
    (hs : c.status = ConversationStatus.stable) (he : goJoin " " input = "") :
    c.sendMessage input now = (c, some SendError.emptyInput, none) := by
  simp [Conversation.sendMessage, hs, he]

theorem sendMessage_messages_shape (c : Conversation) (input : List String) (now : Nat) :
    ∃ tail, ((c.sendMessage input now).1).messages = c.messages ++ tail := by
  rcases status_stable_or_changing c with hs | hs
  · by_cases he : goJoin " " input = ""
    · rw [sendMessage_empty c input now hs he]
      exact ⟨[], (List.append_nil _).symm⟩
    · rw [sendMessage_ok c input now hs he]
      exact ⟨_, rfl⟩
  · rw [sendMessage_busy c input now hs]
    exact ⟨[], (List.append_nil _).symm⟩

theorem convOp_messages_shape (c : Conversation) (op : ConvOp) :
    ∃ tail, (ConvOp.apply c op).messages = c.messages ++ tail := by
  cases op with
  | send input now => exact sendMessage_messages_shape c input now
  | asyncDone outcome now =>
      cases outcome with
      | failure e => exact ⟨[], (List.append_nil _).symm⟩
      | success parts => exact ⟨_, rfl⟩

theorem convGoodIds_append (c : Conversation) (m : ConversationMessage)
    (s : ConversationStatus) (h : convGoodIds c) (hid : m.Id = c.messages.length) :
    convGoodIds { messages := c.messages ++ [m], status := s } := by
  have hm : c.messages.map (fun x => x.Id) = List.range c.messages.length := h
  have goal : (c.messages ++ [m]).map (fun x => x.Id)
      = List.range (c.messages ++ [m]).length := by
    rw [List.map_append, List.length_append, hm]
    simp [List.range_succ, hid]
  exact goal

theorem convGoodIds_step (c : Conversation) (op : ConvOp) (h : convGoodIds c) :
    convGoodIds (ConvOp.apply c op) := by
  cases op with
  | send input now =>
      rcases status_stable_or_changing c with hs | hs
      · by_cases he : goJoin " " input = ""
        · show convGoodIds ((c.sendMessage input now).1)
          rw [sendMessage_empty c input now hs he]
          exact h
        · show convGoodIds ((c.sendMessage input now).1)
          rw [sendMessage_ok c input now hs he]
          exact convGoodIds_append c
            { Id := c.messages.length, Role := ConversationRole.user,
              Message := goJoin " " input, Time := now }
            ConversationStatus.changing h rfl
      · show convGoodIds ((c.sendMessage input now).1)
        rw [sendMessage_busy c input now hs]
        exact h
  | asyncDone outcome now =>
      cases outcome with
      | failure e => exact h
      | success parts =>
          exact convGoodIds_append c
            { Id := c.messages.length, Role := ConversationRole.agent,
              Message := formatMessageParts parts, Time := now }
            ConversationStatus.stable h rfl

theorem applyConvOps_goodIds : ∀ (ops : List ConvOp) (c : Conversation),
    convGoodIds c → convGoodIds (applyConvOps c ops) := by
  intro ops
  induction ops with
  | nil => intro c h; exact h
  | cons op rest ih => intro c h; exact ih (ConvOp.apply c op) (convGoodIds_step c op h)

theorem applyConvOps_prefix : ∀ (ops : List ConvOp) (c : Conversation),
    c.messages <+: (applyConvOps c ops).messages := by
  intro ops
  induction ops with
  | nil => intro c; exact List.prefix_refl _
  | cons op rest ih =>
      intro c
      have h1 : c.messages <+: (ConvOp.apply c op).messages := by
        obtain ⟨t, ht⟩ := convOp_messages_shape c op
        exact ⟨t, ht.symm⟩
      exact h1.trans (ih (ConvOp.apply c op))

theorem ocOp_messages_shape (oc : OpencodeClient) (op : OcOp) :
    ∃ tail, (OcOp.apply oc op).messages = oc.messages ++ tail := by
  obtain ⟨t, ht⟩ := ocSendMessage_messages oc op.content op.chat op.fetch op.now
  exact ⟨_, by rw [show (OcOp.apply oc op).messages
    = ((oc.sendMessage op.content op.chat op.fetch op.now).1).messages from rfl, ht,
    List.append_assoc]⟩

theorem applyOcOps_goodIds : ∀ (ops : List OcOp) (oc : OpencodeClient),
    ocGoodIds oc → ocGoodIds (applyOcOps oc ops) := by
  intro ops
  induction ops with
  | nil => intro oc h; exact h
  | cons op rest ih =>
      intro oc h
      exact ih (OcOp.apply oc op)
        (ocSendMessage_goodIds oc op.content op.chat op.fetch op.now h)

theorem applyOcOps_prefix : ∀ (ops : List OcOp) (oc : OpencodeClient),
    oc.messages <+: (applyOcOps oc ops).messages := by
  intro ops
  induction ops with
  | nil => intro oc; exact List.prefix_refl _
  | cons op rest ih =>
      intro oc
      have h1 : oc.messages <+: (OcOp.apply oc op).messages := by
        obtain ⟨t, ht⟩ := ocOp_messages_shape oc op
        exact ⟨t, ht.symm⟩
      exact h1.trans (ih (OcOp.apply oc op))

/-- C2: over every operation sequence, both trackers keep the message ids a
gap-free, strictly increasing sequence from their fixed origin (0 for the
lib/opencode `Conversation`, 1 for the `OpencodeClient`), so every append
receives an id strictly above all existing ids and ids are never reused; and
the history is append-only — the list at any point is a prefix of the list
after any further operations. -/
theorem claim2_message_ids :
    (∀ ops : List ConvOp,
      (applyConvOps conv0 ops).messages.map (fun m => m.Id)
          = List.range (applyConvOps conv0 ops).messages.length ∧
      ((applyConvOps conv0 ops).messages.map (fun m => m.Id)).Pairwise (· < ·))
    ∧ (∀ (ops more : List ConvOp),
        (applyConvOps conv0 ops).messages <+: (applyConvOps conv0 (ops ++ more)).messages)
    ∧ (∀ ops : List OcOp,
      (applyOcOps oc0 ops).messages.map (fun m => m.Id)
          = List.range' 1 (applyOcOps oc0 ops).messages.length ∧
      ((applyOcOps oc0 ops).messages.map (fun m => m.Id)).Pairwise (· < ·))
    ∧ (∀ (ops more : List OcOp),
        (applyOcOps oc0 ops).messages <+: (applyOcOps oc0 (ops ++ more)).messages) := by
  refine ⟨?_, ?_, ?_, ?_⟩
  · intro ops
    have hg : convGoodIds (applyConvOps conv0 ops) :=
      applyConvOps_goodIds ops conv0 rfl
    have hm : (applyConvOps conv0 ops).messages.map (fun m => m.Id)
        = List.range (applyConvOps conv0 ops).messages.length := hg
    exact ⟨hm, by rw [hm]; exact List.pairwise_lt_range _⟩
  · intro ops more
    have heq : applyConvOps conv0 (ops ++ more)
        = applyConvOps (applyConvOps conv0 ops) more := List.foldl_append _ _ _ _
    rw [heq]
    exact applyConvOps_prefix more (applyConvOps conv0 ops)
  · intro ops
    have hg : ocGoodIds (applyOcOps oc0 ops) :=
      applyOcOps_goodIds ops oc0 rfl
    have hm : (applyOcOps oc0 ops).messages.map (fun m => m.Id)
        = List.range' 1 (applyOcOps oc0 ops).messages.length := hg
    exact ⟨hm, by rw [hm]; exact List.pairwise_lt_range' _ _⟩
  · intro ops more
    have heq : applyOcOps oc0 (ops ++ more)
        = applyOcOps (applyOcOps oc0 ops) more := List.foldl_append _ _ _ _
    rw [heq]
    exact applyOcOps_prefix more (applyOcOps oc0 ops)

/-! ## C5: replay batch and stream filtering -/

/-- C5: a new /events subscriber receives the full replay batch — the current
status as one event, then one message_update per existing message — before
any live event; screen_update events are never delivered on /events; and the
/internal/screen stream delivers only screen_update events. -/
theorem claim5_replay_and_filtering :
    (∀ (status : ConversationStatus) (msgs : List ConversationMessage)
        (screen : String) (live : List EmittedEvent),
      eventsStreamDelivered (subscribeReplayBatch status msgs screen) live
        = (EmittedEvent.statusChange status :: msgs.map EmittedEvent.messageUpdate)
          ++ live.filter (fun e => !(e.etype == EventType.screenUpdate)))
    ∧
    (∀ (status : ConversationStatus) (msgs : List ConversationMessage)
        (screen : String) (live : List EmittedEvent) (e : EmittedEvent),
      e ∈ eventsStreamDelivered (subscribeReplayBatch status msgs screen) live →
      e.etype ≠ EventType.screenUpdate)
    ∧
    (∀ (replay live : List EmittedEvent) (e : EmittedEvent),
      e ∈ screenStreamDelivered replay live → e.etype = EventType.screenUpdate) := by
  refine ⟨?_, ?_, ?_⟩
  · intro status msgs screen live
    simp [eventsStreamDelivered, subscribeReplayBatch, List.filter_append,
      List.filter_map, EmittedEvent.etype, Function.comp]
    exact congrArg (List.map EmittedEvent.messageUpdate)
      (List.filter_eq_self.mpr (fun a _ => rfl))
  · intro status msgs screen live e he
    rcases List.mem_append.mp he with h1 | h1
    · have hp := (List.mem_filter.mp h1).2
      simpa using hp
    · have hp := (List.mem_filter.mp h1).2
      simpa using hp
  · intro replay live e he
    rcases List.mem_append.mp he with h1 | h1
    · have hp := (List.mem_filter.mp h1).2
      simpa using hp
    · have hp := (List.mem_filter.mp h1).2
      simpa using hp

/-- C5 witness: the theorem applied to a concrete subscriber state with one
existing message and one live screen event. -/
theorem claim5_witness :
    eventsStreamDelivered
        (subscribeReplayBatch ConversationStatus.stable
          [{ Id := 0, Role := ConversationRole.agent, Message := "Welcome", Time := 0 }] "scr")
        [EmittedEvent.screenUpdate "s2"]
      = [EmittedEvent.statusChange ConversationStatus.stable,
         EmittedEvent.messageUpdate
           { Id := 0, Role := ConversationRole.agent, Message := "Welcome", Time := 0 }] ∧
    (EmittedEvent.statusChange ConversationStatus.stable).etype ≠ EventType.screenUpdate ∧
    (EmittedEvent.screenUpdate "scr").etype = EventType.screenUpdate := by
  refine ⟨?_, ?_, ?_⟩
  · exact claim5_replay_and_filtering.1 ConversationStatus.stable
      [{ Id := 0, Role := ConversationRole.agent, Message := "Welcome", Time := 0 }] "scr"
      [EmittedEvent.screenUpdate "s2"]
  · exact claim5_replay_and_filtering.2.1 ConversationStatus.stable
      [{ Id := 0, Role := ConversationRole.agent, Message := "Welcome", Time := 0 }] "scr"
      [EmittedEvent.screenUpdate "s2"] _ (by decide)
  · exact claim5_replay_and_filtering.2.2
      (subscribeReplayBatch ConversationStatus.stable [] "scr") [] _ (by decide)

/-! ## C6: emitter deduplication -/

theorem findMsg_setMsg_self : ∀ (l : List ConversationMessage) (m : ConversationMessage),
    findMsg (setMsg l m) m.Id = some m := by
  intro l m
  induction l with
  | nil =>
      show (if m.Id = m.Id then some m else none) = some m
      rw [if_pos rfl]
  | cons x xs ih =>
      show findMsg (if x.Id = m.Id then m :: xs else x :: setMsg xs m) m.Id = some m
      by_cases hx : x.Id = m.Id
      · rw [if_pos hx]
        show (if m.Id = m.Id then some m else findMsg xs m.Id) = some m
        rw [if_pos rfl]
      · rw [if_neg hx]
        show (if x.Id = m.Id then some x else findMsg (setMsg xs m) m.Id) = some m
        rw [if_neg hx]
        exact ih

theorem findMsg_setMsg_ne : ∀ (l : List ConversationMessage) (m : ConversationMessage)
    (j : Nat), j ≠ m.Id → findMsg (setMsg l m) j = findMsg l j := by
  intro l m
  induction l with
  | nil =>
      intro j hj
      show (if m.Id = j then some m else none) = none
      rw [if_neg (fun hh => hj hh.symm)]
  | cons x xs ih =>
      intro j hj
      show findMsg (if x.Id = m.Id then m :: xs else x :: setMsg xs m) j
          = findMsg (x :: xs) j
      by_cases hx : x.Id = m.Id
      · rw [if_pos hx]
        show (if m.Id = j then some m else findMsg xs j)
            = (if x.Id = j then some x else findMsg xs j)
        rw [if_neg (fun hh => hj hh.symm), if_neg (fun hh => hj (hh.symm.trans hx))]
      · rw [if_neg hx]
        show (if x.Id = j then some x else findMsg (setMsg xs m) j)
            = (if x.Id = j then some x else findMsg xs j)
        by_cases hxj : x.Id = j
        · rw [if_pos hxj, if_pos hxj]
        · rw [if_neg hxj, if_neg hxj]
          exact ih j hj

theorem msgChanged_false_elim (l : List ConversationMessage) (m : ConversationMessage)
    (h : msgChanged l m = false) :
    ∃ old, findMsg l m.Id = some old ∧ old.Message = m.Message := by
  unfold msgChanged at h
  cases hf : findMsg l m.Id with
  | none => rw [hf] at h; cases h
  | some old =>
      rw [hf] at h
      refine ⟨old, rfl, ?_⟩
      simpa using h

theorem msgChanged_false_of_cov (l : List ConversationMessage) (m : ConversationMessage)
    (h : ∃ old, findMsg l m.Id = some old ∧ old.Message = m.Message) :
    msgChanged l m = false := by
  obtain ⟨old, hf, hm⟩ := h
  unfold msgChanged
  rw [hf]
  simp [hm]

theorem stepMsg_lastStatus (acc : List EmittedEvent × EventEmitter) (m : ConversationMessage) :
    ((stepMsg acc m).2).lastStatus = acc.2.lastStatus := by
  unfold stepMsg
  by_cases hc : msgChanged acc.2.lastMessages m = true
  · rw [if_pos hc]
  · rw [if_neg hc]

theorem stepMsg_lastScreen (acc : List EmittedEvent × EventEmitter) (m : ConversationMessage) :
    ((stepMsg acc m).2).lastScreen = acc.2.lastScreen := by
  unfold stepMsg
  by_cases hc : msgChanged acc.2.lastMessages m = true
  · rw [if_pos hc]
  · rw [if_neg hc]

theorem foldl_stepMsg_lastStatus : ∀ (msgs : List ConversationMessage)
    (acc : List EmittedEvent × EventEmitter),
    ((msgs.foldl stepMsg acc).2).lastStatus = acc.2.lastStatus := by
  intro msgs
  induction msgs with
  | nil => intro acc; rfl
  | cons m rest ih =>
      intro acc
      show ((rest.foldl stepMsg (stepMsg acc m)).2).lastStatus = _
      rw [ih (stepMsg acc m), stepMsg_lastStatus]

theorem foldl_stepMsg_lastScreen : ∀ (msgs : List ConversationMessage)
    (acc : List EmittedEvent × EventEmitter),
    ((msgs.foldl stepMsg acc).2).lastScreen = acc.2.lastScreen := by
  intro msgs
  induction msgs with
  | nil => intro acc; rfl
  | cons m rest ih =>
      intro acc
      show ((rest.foldl stepMsg (stepMsg acc m)).2).lastScreen = _
      rw [ih (stepMsg acc m), stepMsg_lastScreen]

theorem foldl_stepMsg_findMsg_preserve : ∀ (msgs : List ConversationMessage)
    (acc : List EmittedEvent × EventEmitter) (j : Nat),
    (∀ m ∈ msgs, m.Id ≠ j) →
    findMsg (((msgs.foldl stepMsg acc).2).lastMessages) j
      = findMsg acc.2.lastMessages j := by
  intro msgs
  induction msgs with
  | nil => intro acc j _; rfl
  | cons m rest ih =>
      intro acc j hne
      show findMsg (((rest.foldl stepMsg (stepMsg acc m)).2).lastMessages) j = _
      rw [ih (stepMsg acc m) j (fun m' h => hne m' (List.mem_cons_of_mem _ h))]
      unfold stepMsg
      by_cases hc : msgChanged acc.2.lastMessages m = true
      · rw [if_pos hc]
        show findMsg (setMsg acc.2.lastMessages m) j = _
        exact findMsg_setMsg_ne _ m j (Ne.symm (hne m (List.mem_cons_self _ _)))
      · rw [if_neg hc]

theorem updateMessages_noop : ∀ (msgs : List ConversationMessage)
    (acc : List EmittedEvent × EventEmitter),
    (∀ m ∈ msgs, ∃ old, findMsg acc.2.lastMessages m.Id = some old ∧
      old.Message = m.Message) →
    msgs.foldl stepMsg acc = acc := by
  intro msgs
  induction msgs with
  | nil => intro acc _; rfl
  | cons m rest ih =>
      intro acc hcov
      have hcf : msgChanged acc.2.lastMessages m = false :=
        msgChanged_false_of_cov _ _ (hcov m (List.mem_cons_self m rest))
      have hstep : stepMsg acc m = acc := by
        unfold stepMsg
        rw [if_neg (by rw [hcf]; exact Bool.false_ne_true)]
      show rest.foldl stepMsg (stepMsg acc m) = acc
      rw [hstep]
      exact ih acc (fun m' hm' => hcov m' (List.mem_cons_of_mem m hm'))

theorem updateMessages_covers : ∀ (msgs : List ConversationMessage)
    (acc : List EmittedEvent × EventEmitter),
    (msgs.map (fun m => m.Id)).Nodup →
    ∀ m ∈ msgs, ∃ old,
      findMsg (((msgs.foldl stepMsg acc).2).lastMessages) m.Id = some old ∧
      old.Message = m.Message := by
  intro msgs
  induction msgs with
  | nil => intro acc _ m hm; cases hm
  | cons m0 rest ih =>
      intro acc hnd m hm
      have hnd2 := List.nodup_cons.mp hnd
      have hcov0 : ∃ old, findMsg (((stepMsg acc m0).2).lastMessages) m0.Id = some old ∧
          old.Message = m0.Message := by
        unfold stepMsg
        by_cases hc : msgChanged acc.2.lastMessages m0 = true
        · rw [if_pos hc]
          exact ⟨m0, findMsg_setMsg_self _ m0, rfl⟩
        · rw [if_neg hc]
          have hcf : msgChanged acc.2.lastMessages m0 = false := by
            cases hcc : msgChanged acc.2.lastMessages m0
            · rfl
            · exact absurd hcc hc
          exact msgChanged_false_elim _ _ hcf
      rcases List.mem_cons.mp hm with rfl | hm'
  -- m is the head m0
      · obtain ⟨old, hf, hms⟩ := hcov0
        refine ⟨old, ?_, hms⟩
        show findMsg (((rest.foldl stepMsg (stepMsg acc m)).2).lastMessages) m.Id = some old
        rw [foldl_stepMsg_findMsg_preserve rest (stepMsg acc m) m.Id ?hne]
        · exact hf
        case hne =>
          intro m' hm' heq
          refine hnd2.1 ?_
          show m.Id ∈ List.map (fun x => x.Id) rest
          rw [← heq]
          exact List.mem_map_of_mem (fun x => x.Id) hm'
      · show ∃ old, findMsg (((rest.foldl stepMsg (stepMsg acc m0)).2).lastMessages) m.Id
            = some old ∧ old.Message = m.Message
        exact ih (stepMsg acc m0) hnd2.2 m hm'

theorem updateStatus_lastStatus (em : EventEmitter) (s : ConversationStatus) :
    ((em.updateStatus s).2).lastStatus = some s := by
  unfold EventEmitter.updateStatus
  by_cases hc : em.lastStatus = some s
  · rw [if_pos hc]
    exact hc
  · rw [if_neg hc]

theorem updateStatus_lastMessages (em : EventEmitter) (s : ConversationStatus) :
    ((em.updateStatus s).2).lastMessages = em.lastMessages := by
  unfold EventEmitter.updateStatus
  by_cases hc : em.lastStatus = some s
  · rw [if_pos hc]
  · rw [if_neg hc]

theorem updateStatus_lastScreen (em : EventEmitter) (s : ConversationStatus) :
    ((em.updateStatus s).2).lastScreen = em.lastScreen := by
  unfold EventEmitter.updateStatus
  by_cases hc : em.lastStatus = some s
  · rw [if_pos hc]
  · rw [if_neg hc]

theorem updateScreen_lastScreen (em : EventEmitter) (scr : String) :
    ((em.updateScreen scr).2).lastScreen = some scr := by
  unfold EventEmitter.updateScreen
  by_cases hc : em.lastScreen = some scr
  · rw [if_pos hc]
    exact hc
  · rw [if_neg hc]

theorem updateScreen_lastStatus (em : EventEmitter) (scr : String) :
    ((em.updateScreen scr).2).lastStatus = em.lastStatus := by
  unfold EventEmitter.updateScreen
  by_cases hc : em.lastScreen = some scr
  · rw [if_pos hc]
  · rw [if_neg hc]

theorem updateScreen_lastMessages (em : EventEmitter) (scr : String) :
    ((em.updateScreen scr).2).lastMessages = em.lastMessages := by
  unfold EventEmitter.updateScreen
  by_cases hc : em.lastScreen = some scr
  · rw [if_pos hc]
  · rw [if_neg hc]

theorem updateStatus_of_eq (em : EventEmitter) (s : ConversationStatus)
    (h : em.lastStatus = some s) : em.updateStatus s = ([], em) := by
  unfold EventEmitter.updateStatus
  rw [if_pos h]

theorem updateScreen_of_eq (em : EventEmitter) (scr : String)
    (h : em.lastScreen = some scr) : em.updateScreen scr = ([], em) := by
  unfold EventEmitter.updateScreen
  rw [if_pos h]

theorem updateMessages_lastStatus (em : EventEmitter) (msgs : List ConversationMessage) :
    ((em.updateMessages msgs).2).lastStatus = em.lastStatus := by
  show (((msgs.foldl stepMsg ([], em))).2).lastStatus = em.lastStatus
  rw [foldl_stepMsg_lastStatus]

theorem updateMessages_lastScreen (em : EventEmitter) (msgs : List ConversationMessage) :
    ((em.updateMessages msgs).2).lastScreen = em.lastScreen := by
  show (((msgs.foldl stepMsg ([], em))).2).lastScreen = em.lastScreen
  rw [foldl_stepMsg_lastScreen]

theorem tick_state (em : EventEmitter) (i : TickInput)
    (hnd : (i.msgs.map (fun m => m.Id)).Nodup) :
    ((em.tick i).2).lastStatus = some i.status ∧
    ((em.tick i).2).lastScreen = some i.screen ∧
    (∀ m ∈ i.msgs, ∃ old, findMsg (((em.tick i).2).lastMessages) m.Id = some old ∧
      old.Message = m.Message) := by
  refine ⟨?_, ?_, ?_⟩
  · show (((((em.updateStatus i.status).2).updateMessages i.msgs).2.updateScreen
        i.screen).2).lastStatus = some i.status
    rw [updateScreen_lastStatus, updateMessages_lastStatus, updateStatus_lastStatus]
  · show (((((em.updateStatus i.status).2).updateMessages i.msgs).2.updateScreen
        i.screen).2).lastScreen = some i.screen
    rw [updateScreen_lastScreen]
  · intro m hm
    show ∃ old, findMsg ((((((em.updateStatus i.status).2).updateMessages
        i.msgs).2.updateScreen i.screen).2).lastMessages) m.Id = some old ∧
      old.Message = m.Message
    rw [updateScreen_lastMessages]
    exact updateMessages_covers i.msgs ([], (em.updateStatus i.status).2) hnd m hm

theorem tick_twice_empty (em : EventEmitter) (i : TickInput)
    (hnd : (i.msgs.map (fun m => m.Id)).Nodup) :
    (((em.tick i).2).tick i).1 = [] := by
  obtain ⟨h1, h2, h3⟩ := tick_state em i hnd
  generalize hX : (em.tick i).2 = X at h1 h2 h3 ⊢
  have e1 : X.updateStatus i.status = ([], X) := updateStatus_of_eq X i.status h1
  have e2 : X.updateMessages i.msgs = ([], X) :=
    updateMessages_noop i.msgs ([], X) h3
  have e3 : X.updateScreen i.screen = ([], X) := updateScreen_of_eq X i.screen h2
  show (X.updateStatus i.status).1
      ++ ((X.updateStatus i.status).2.updateMessages i.msgs).1
      ++ (((X.updateStatus i.status).2.updateMessages i.msgs).2.updateScreen i.screen).1
      = []
  simp only [e1, e2, e3]
  rfl

theorem adjOk_nil : adjOk [] := List.chain'_nil

theorem adjOk_append_one (evs : List EmittedEvent) (e : EmittedEvent)
    (h : adjOk evs)
    (hl : ∀ x, evs.getLast? = some x → x.etype = e.etype → x ≠ e) :
    adjOk (evs ++ [e]) := by
  show List.Chain' (fun a b => a.etype = b.etype → a ≠ b) (evs ++ [e])
  rw [List.chain'_append]
  refine ⟨h, List.chain'_singleton e, ?_⟩
  intro x hx y hy
  have hye : e = y := by simpa using hy
  subst hye
  exact hl x (Option.mem_def.mp hx)

theorem updateStatus_adj (em : EventEmitter) (s : ConversationStatus)
    (evs : List EmittedEvent) (hadj : adjOk evs)
    (hinv : lastEventConsistent em evs.getLast?) :
    adjOk (evs ++ (em.updateStatus s).1) ∧
    lastEventConsistent (em.updateStatus s).2
      ((evs ++ (em.updateStatus s).1).getLast?) := by
  unfold EventEmitter.updateStatus
  by_cases hc : em.lastStatus = some s
  · rw [if_pos hc]
    show adjOk (evs ++ []) ∧ lastEventConsistent em ((evs ++ []).getLast?)
    rw [List.append_nil]
    exact ⟨hadj, hinv⟩
  · rw [if_neg hc]
    constructor
    · apply adjOk_append_one evs _ hadj
      intro x hx _hxe heq
      rw [hx, heq] at hinv
      exact hc hinv
    · show lastEventConsistent { em with lastStatus := some s }
        ((evs ++ [EmittedEvent.statusChange s]).getLast?)
      rw [List.getLast?_concat]
      show (some s : Option ConversationStatus) = some s
      rfl

theorem updateScreen_adj (em : EventEmitter) (scr : String)
    (evs : List EmittedEvent) (hadj : adjOk evs)
    (hinv : lastEventConsistent em evs.getLast?) :
    adjOk (evs ++ (em.updateScreen scr).1) ∧
    lastEventConsistent (em.updateScreen scr).2
      ((evs ++ (em.updateScreen scr).1).getLast?) := by
  unfold EventEmitter.updateScreen
  by_cases hc : em.lastScreen = some scr
  · rw [if_pos hc]
    show adjOk (evs ++ []) ∧ lastEventConsistent em ((evs ++ []).getLast?)
    rw [List.append_nil]
    exact ⟨hadj, hinv⟩
  · rw [if_neg hc]
    constructor
    · apply adjOk_append_one evs _ hadj
      intro x hx _hxe heq
      rw [hx, heq] at hinv
      exact hc hinv
    · show lastEventConsistent { em with lastScreen := some scr }
        ((evs ++ [EmittedEvent.screenUpdate scr]).getLast?)
      rw [List.getLast?_concat]
      show (some scr : Option String) = some scr
      rfl

theorem stepMsg_adj (acc : List EmittedEvent × EventEmitter) (m : ConversationMessage)
    (hadj : adjOk acc.1) (hinv : lastEventConsistent acc.2 acc.1.getLast?) :
    adjOk ((stepMsg acc m).1) ∧
    lastEventConsistent ((stepMsg acc m).2) (((stepMsg acc m).1).getLast?) := by
  unfold stepMsg
  by_cases hc : msgChanged acc.2.lastMessages m = true
  · rw [if_pos hc]
    constructor
    · apply adjOk_append_one acc.1 _ hadj
      intro x hx _hxe heq
      rw [hx, heq] at hinv
      have hcov : ∃ old, findMsg acc.2.lastMessages m.Id = some old ∧
          old.Message = m.Message := hinv
      rw [msgChanged_false_of_cov _ _ hcov] at hc
      exact Bool.false_ne_true hc
    · show lastEventConsistent
        { acc.2 with lastMessages := setMsg acc.2.lastMessages m }
        ((acc.1 ++ [EmittedEvent.messageUpdate m]).getLast?)
      rw [List.getLast?_concat]
      exact ⟨m, findMsg_setMsg_self _ m, rfl⟩
  · rw [if_neg hc]
    exact ⟨hadj, hinv⟩

theorem stepMsg_fold_adj : ∀ (msgs : List ConversationMessage)
    (acc : List EmittedEvent × EventEmitter),
    adjOk acc.1 → lastEventConsistent acc.2 acc.1.getLast? →
    adjOk ((msgs.foldl stepMsg acc).1) ∧
    lastEventConsistent ((msgs.foldl stepMsg acc).2)
      (((msgs.foldl stepMsg acc).1).getLast?) := by
  intro msgs
  induction msgs with
  | nil => intro acc h1 h2; exact ⟨h1, h2⟩
  | cons m rest ih =>
      intro acc h1 h2
      obtain ⟨h3, h4⟩ := stepMsg_adj acc m h1 h2
      exact ih (stepMsg acc m) h3 h4

theorem stepMsg_shift_one (acc : List EmittedEvent × EventEmitter)
    (m : ConversationMessage) :
    stepMsg acc m
      = (acc.1 ++ (stepMsg ([], acc.2) m).1, (stepMsg ([], acc.2) m).2) := by
  by_cases hc : msgChanged acc.2.lastMessages m = true
  · simp [stepMsg, hc]
  · simp [stepMsg, hc]

theorem stepMsg_fold_shift : ∀ (msgs : List ConversationMessage)
    (acc : List EmittedEvent × EventEmitter),
    msgs.foldl stepMsg acc
      = (acc.1 ++ (msgs.foldl stepMsg ([], acc.2)).1,
         (msgs.foldl stepMsg ([], acc.2)).2) := by
  intro msgs
  induction msgs with
  | nil => intro acc; simp
  | cons m rest ih =>
      intro acc
      show rest.foldl stepMsg (stepMsg acc m)
          = (acc.1 ++ ((m :: rest).foldl stepMsg ([], acc.2)).1,
             ((m :: rest).foldl stepMsg ([], acc.2)).2)
      rw [ih (stepMsg acc m), stepMsg_shift_one acc m]
      rw [show (m :: rest).foldl stepMsg ([], acc.2)
          = rest.foldl stepMsg (stepMsg ([], acc.2) m) from rfl]
      rw [ih (stepMsg ([], acc.2) m)]
      simp [List.append_assoc]

theorem updateMessages_adj (em : EventEmitter) (msgs : List ConversationMessage)
    (evs : List EmittedEvent) (hadj : adjOk evs)
    (hinv : lastEventConsistent em evs.getLast?) :
    adjOk (evs ++ (em.updateMessages msgs).1) ∧
    lastEventConsistent (em.updateMessages msgs).2
      ((evs ++ (em.updateMessages msgs).1).getLast?) := by
  have h := stepMsg_fold_adj msgs (evs, em) hadj hinv
  rw [stepMsg_fold_shift msgs (evs, em)] at h
  exact h

theorem tick_adj (em : EventEmitter) (i : TickInput) (evs : List EmittedEvent)
    (hadj : adjOk evs) (hinv : lastEventConsistent em evs.getLast?) :
    adjOk (evs ++ (em.tick i).1) ∧
    lastEventConsistent (em.tick i).2 ((evs ++ (em.tick i).1).getLast?) := by
  obtain ⟨h1, h2⟩ := updateStatus_adj em i.status evs hadj hinv
  obtain ⟨h3, h4⟩ := updateMessages_adj (em.updateStatus i.status).2 i.msgs
    (evs ++ (em.updateStatus i.status).1) h1 h2
  obtain ⟨h5, h6⟩ := updateScreen_adj
    ((em.updateStatus i.status).2.updateMessages i.msgs).2 i.screen
    ((evs ++ (em.updateStatus i.status).1)
      ++ ((em.updateStatus i.status).2.updateMessages i.msgs).1) h3 h4
  constructor
  · show adjOk (evs ++ ((em.updateStatus i.status).1
        ++ ((em.updateStatus i.status).2.updateMessages i.msgs).1
        ++ (((em.updateStatus i.status).2.updateMessages i.msgs).2.updateScreen
          i.screen).1))
    simpa [List.append_assoc] using h5
  · show lastEventConsistent
      ((((em.updateStatus i.status).2.updateMessages i.msgs).2.updateScreen i.screen).2)
      ((evs ++ ((em.updateStatus i.status).1
        ++ ((em.updateStatus i.status).2.updateMessages i.msgs).1
        ++ (((em.updateStatus i.status).2.updateMessages i.msgs).2.updateScreen
          i.screen).1)).getLast?)
    have hassoc : (evs ++ ((em.updateStatus i.status).1
        ++ ((em.updateStatus i.status).2.updateMessages i.msgs).1
        ++ (((em.updateStatus i.status).2.updateMessages i.msgs).2.updateScreen
          i.screen).1))
        = (((evs ++ (em.updateStatus i.status).1)
          ++ ((em.updateStatus i.status).2.updateMessages i.msgs).1)
          ++ (((em.updateStatus i.status).2.updateMessages i.msgs).2.updateScreen
            i.screen).1) := by
      simp [List.append_assoc]
    rw [hassoc]
    exact h6

theorem runFold_adj : ∀ (inputs : List TickInput)
    (acc : List EmittedEvent × EventEmitter),
    adjOk acc.1 → lastEventConsistent acc.2 acc.1.getLast? →
    adjOk ((inputs.foldl runStep acc).1) ∧
    lastEventConsistent ((inputs.foldl runStep acc).2)
      (((inputs.foldl runStep acc).1).getLast?) := by
  intro inputs
  induction inputs with
  | nil => intro acc h1 h2; exact ⟨h1, h2⟩
  | cons i rest ih =>
      intro acc h1 h2
      obtain ⟨h3, h4⟩ := tick_adj acc.2 i acc.1 h1 h2
      exact ih (runStep acc i) h3 h4

/-- C6: the Event Emitter never emits two consecutive events of the same type
carrying identical payloads — over any run from any starting state the
emitted stream satisfies the adjacent-deduplication property — and feeding
the same polled state (with duplicate-free message ids) to two consecutive
ticks produces zero events on the second tick. -/
theorem claim6_emitter_dedup (em em2 : EventEmitter) (inputs : List TickInput)
    (i : TickInput) (hnd : (i.msgs.map (fun m => m.Id)).Nodup) :
    adjOk (em.run inputs).1 ∧ (((em2.tick i).2).tick i).1 = [] := by
  constructor
  · have h := runFold_adj inputs ([], em) adjOk_nil trivial
    exact h.1
  · exact tick_twice_empty em2 i hnd

/-- C6 witness: the theorem applied to a concrete emitter run and a concrete
repeated tick. -/
theorem claim6_witness :
    adjOk (EventEmitter.run
        { lastStatus := none, lastMessages := [], lastScreen := none }
        [{ status := ConversationStatus.stable, msgs := [], screen := "s" }]).1 ∧
    ((EventEmitter.tick
        (EventEmitter.tick { lastStatus := none, lastMessages := [], lastScreen := none }
          { status := ConversationStatus.stable, msgs := [], screen := "s" }).2
        { status := ConversationStatus.stable, msgs := [], screen := "s" }).1 = []) :=
  claim6_emitter_dedup
    { lastStatus := none, lastMessages := [], lastScreen := none }
    { lastStatus := none, lastMessages := [], lastScreen := none }
    [{ status := ConversationStatus.stable, msgs := [], screen := "s" }]
    { status := ConversationStatus.stable, msgs := [], screen := "s" }
    (by decide)
